import Mathlib

/-!
Verification development for the caribou finite-element toolkit.

Shallow embedding of:
- `SofaCaribou::ode::NewtonRaphsonSolver::solve` (Ode/NewtonRaphsonSolver.cpp):
  the Newton-Raphson iteration loop, its short-circuit on the initial residual,
  its divergence and convergence checks, and its telemetry (squared-residual and
  iteration-time histories), together with the missing-linear-solver no-op path.
- `caribou::geometry::RectangularHexahedron::T` / `Tinv`
  (Geometry/RectangularHexahedron.h): local/world coordinate transformations.
- `caribou::topology::engine::Grid::get` (Topology/Engine/Grid/Grid.h):
  the non-const and const accessors.

Machine doubles are modelled as exact rationals extended with a NaN element;
every comparison involving NaN is false, mirroring IEEE comparison semantics
used by the C++ code (`std::isnan`, `<`, `<=`).
-/

namespace Caribou

/-- Model of a C++ `double` as an exact rational extended with a NaN element.
Rounding is not modelled; the claims under study depend only on ordering,
NaN-propagation and NaN-comparison behaviour. -/
inductive F where
  | nan : F
  | val : ℚ → F
deriving DecidableEq

/-- `std::isnan`. -/
def F.isNaN : F → Bool
  | .nan => true
  | .val _ => false

/-- The C++ `<` on doubles: false whenever an operand is NaN. -/
def F.lt : F → F → Bool
  | .val a, .val b => decide (a < b)
  | _, _ => false

/-- The C++ `<=` on doubles: false whenever an operand is NaN. -/
def F.le : F → F → Bool
  | .val a, .val b => decide (a ≤ b)
  | _, _ => false

/-- Multiplication of a (finite) configuration constant with a runtime double;
NaN propagates, as in IEEE arithmetic. -/
def F.scale (c : ℚ) : F → F
  | .nan => .nan
  | .val a => .val (c * a)

/-- Modelled from the spec: the numerical floor (denominator underflow guard)
named `EPSILON` by the divergence check. Its defining configuration header
(Caribou config) is not part of the sources at hand, so it is modelled as a
small positive rational standing for the double machine epsilon. None of the
properties below depend on its exact value, only on it being a fixed constant. -/
def EPSILON : ℚ := 1 / 2 ^ 52

/-- The configuration data of `NewtonRaphsonSolver` read at the start of
`solve`: `d_newton_iterations`, `d_correction_tolerance_threshold` and
`d_residual_tolerance_threshold`. -/
structure Options where
  newton_iterations : ℕ
  correction_tolerance_threshold : ℚ
  residual_tolerance_threshold : ℚ

/-- The external collaborators of one `solve` call, viewed as oracles indexed
by the Newton iteration counter `n_it`:
- `R0` is the squared norm `dot(p_F, p_F)` of the initial residual assembled
  before the loop;
- `solveOk k` is the success flag returned by the linear solver at iteration
  `k`;
- `updatedR k` is the squared norm of the residual re-assembled from the
  updated configuration at iteration `k` (used only when more than one Newton
  iteration is configured);
- `dx2 k` is `dx.dot(dx)` after propagating the increment at iteration `k`;
- `du2 k` is `U.dot(U)` after accumulating `U += dx` at iteration `k`;
- `itTime k` is the wall-clock duration of iteration `k` in nanoseconds. -/
structure Env where
  R0 : F
  solveOk : ℕ → Bool
  updatedR : ℕ → F
  dx2 : ℕ → F
  du2 : ℕ → F
  itTime : ℕ → ℕ

/-- The convergence reason surfaced to the logs by `solve` (the
"already reached an equilibrium state" / `[CONVERGED]` info messages). -/
inductive Reason where
  | initialEquilibrium : Reason
  | correction : Reason
  | residual : Reason
deriving DecidableEq

/-- The mutable local state of the Newton iteration loop of `solve`, together
with effect counters recording the state-mutating calls made so far
(`assemble_system_matrix`, `propagate_position_increment`, the `U += dx`
accumulation). -/
structure LoopState where
  n_it : ℕ
  R_squared_norm : F
  p_squared_residuals : List F
  p_times : List ℕ
  converged : Bool
  diverged : Bool
  reason : Option Reason
  nMatrixAssemblies : ℕ
  nPropagations : ℕ
  nAccumulations : ℕ
deriving DecidableEq

/-- One body execution of the `while (not converged and n_it < newton_iterations)`
loop of `NewtonRaphsonSolver::solve`:
Part 1 assembles the system matrix; Part 2 runs the linear solver and breaks
with `diverged = true` on failure; Part 3 propagates the increment; Parts 4-5
re-assemble the residual only when more than one Newton iteration is
configured; Part 6 accumulates `U += dx` and computes the squared norms;
Part 7 records the iteration time and squared residual and increments `n_it`;
then the divergence check, the correction convergence check and the residual
convergence check run in that order, the residual check dividing by
`p_squared_residuals[0]`. -/
def newtonStep (opts : Options) (env : Env) (s : LoopState) : LoopState :=
  let s1 := { s with nMatrixAssemblies := s.nMatrixAssemblies + 1 }
  if env.solveOk s.n_it = false then
    { s1 with diverged := true }
  else
    let Rsq := if 1 < opts.newton_iterations then env.updatedR s.n_it else s.R_squared_norm
    let dxsq := env.dx2 s.n_it
    let dusq := env.du2 s.n_it
    let s2 := { s1 with
      nPropagations := s1.nPropagations + 1,
      nAccumulations := s1.nAccumulations + 1,
      R_squared_norm := Rsq,
      p_times := s1.p_times ++ [env.itTime s.n_it],
      p_squared_residuals := s1.p_squared_residuals ++ [Rsq],
      n_it := s.n_it + 1 }
    if Rsq.isNaN || dxsq.isNaN || dusq.lt (F.val EPSILON) then
      { s2 with diverged := true }
    else if decide (0 < opts.correction_tolerance_threshold) &&
        dxsq.lt (F.scale (opts.correction_tolerance_threshold * opts.correction_tolerance_threshold) dusq) then
      { s2 with converged := true, reason := some Reason.correction }
    else if decide (0 < opts.residual_tolerance_threshold) &&
        Rsq.lt (F.scale (opts.residual_tolerance_threshold * opts.residual_tolerance_threshold)
          (s2.p_squared_residuals.headD (F.val 0))) then
      { s2 with converged := true, reason := some Reason.residual }
    else
      s2

/-- The Newton iteration loop, driven by explicit fuel. The loop guard is
`not converged and n_it < newton_iterations`; a step that sets `diverged`
breaks out of the loop, which the guard's `diverged` disjunct models. -/
def newtonLoop (opts : Options) (env : Env) : ℕ → LoopState → LoopState
  | 0, s => s
  | fuel + 1, s =>
    if s.converged || s.diverged || decide (opts.newton_iterations ≤ s.n_it) then s
    else newtonLoop opts env fuel (newtonStep opts env s)

/-- The loop state right after the first-residual phase of `solve`: histories
cleared, `R_squared_norm` set to the squared initial residual, and `converged`
short-circuited when `residual_tolerance_threshold > 0` and
`R_squared_norm <= residual_tolerance_threshold`. -/
def initialState (opts : Options) (env : Env) : LoopState :=
  let shortCircuit := decide (0 < opts.residual_tolerance_threshold) &&
    env.R0.le (F.val opts.residual_tolerance_threshold)
  { n_it := 0
  , R_squared_norm := env.R0
  , p_squared_residuals := []
  , p_times := []
  , converged := shortCircuit
  , diverged := false
  , reason := if shortCircuit then some Reason.initialEquilibrium else none
  , nMatrixAssemblies := 0
  , nPropagations := 0
  , nAccumulations := 0 }

/-- The observable outcome of one `solve` call with a valid linear solver. -/
structure SolveResult where
  converged : Bool
  diverged : Bool
  n_it : ℕ
  p_squared_residuals : List F
  p_times : List ℕ
  p_squared_initial_residual : F
  reason : Option Reason
  nMatrixAssemblies : ℕ
  nPropagations : ℕ
  nAccumulations : ℕ
deriving DecidableEq

/-- `NewtonRaphsonSolver::solve` past the linear-solver validity check:
assemble the initial residual, short-circuit on it if below tolerance, then run
the Newton loop. `newton_iterations + 1` fuel is enough for the guard, never
the fuel, to end the loop, since every step either increments `n_it` or sets a
termination flag. -/
def runSolve (opts : Options) (env : Env) : SolveResult :=
  let s := newtonLoop opts env (opts.newton_iterations + 1) (initialState opts env)
  { converged := s.converged
  , diverged := s.diverged
  , n_it := s.n_it
  , p_squared_residuals := s.p_squared_residuals
  , p_times := s.p_times
  , p_squared_initial_residual := env.R0
  , reason := s.reason
  , nMatrixAssemblies := s.nMatrixAssemblies
  , nPropagations := s.nPropagations
  , nAccumulations := s.nAccumulations }

/-- The component state visible across `solve` calls: the function-local static
`error_message_already_printed` flag, the `d_converged` data field, the
telemetry vectors, and an abstract version counter for the mechanical state
vectors mutated through `vop`/`mop` (positions, velocities, increments). -/
structure ComponentState where
  error_message_already_printed : Bool
  d_converged : Bool
  p_squared_residuals : List F
  p_times : List ℕ
  p_squared_initial_residual : F
  mechanicalState : ℕ
deriving DecidableEq

/-- A full `NewtonRaphsonSolver::solve` call. `valid` is the value of
`has_valid_linear_solver()`. When it is false the call returns right away,
emitting the two `msg_error` messages only when the static flag is clear;
otherwise the flag is reset and the Newton solve runs, updating the telemetry
fields and mutating the mechanical state once per increment propagation. The
second component counts the error messages emitted by this call. -/
def solveCall (valid : Bool) (opts : Options) (env : Env) (st : ComponentState) :
    ComponentState × ℕ :=
  if valid = false then
    if st.error_message_already_printed = false then
      ({ st with error_message_already_printed := true }, 2)
    else
      (st, 0)
  else
    let r := runSolve opts env
    ({ error_message_already_printed := false
     , d_converged := r.converged
     , p_squared_residuals := r.p_squared_residuals
     , p_times := r.p_times
     , p_squared_initial_residual := r.p_squared_initial_residual
     , mechanicalState := st.mechanicalState + r.nPropagations }, 0)

/-- The invariant maintained by the Newton iteration loop: both telemetry
histories have one entry per completed iteration, the completed-iteration count
never exceeds the configured maximum, and the converged and diverged flags are
never both set. -/
def LoopInv (opts : Options) (s : LoopState) : Prop :=
  s.p_squared_residuals.length = s.n_it ∧
  s.p_times.length = s.n_it ∧
  s.n_it ≤ opts.newton_iterations ∧
  (s.converged && s.diverged) = false

/-- A configuration with a single Newton iteration, a disabled correction
criterion and residual tolerance 2. -/
def cOpts1 : Options :=
  { newton_iterations := 1
  , correction_tolerance_threshold := -1
  , residual_tolerance_threshold := 2 }

/-- A configuration with a single Newton iteration and both convergence
criteria disabled by non-positive tolerances. -/
def noTolOpts : Options :=
  { newton_iterations := 1
  , correction_tolerance_threshold := -1
  , residual_tolerance_threshold := -1 }

/-- A configuration with two Newton iterations, a disabled correction
criterion and residual tolerance 1/2. -/
def c2Opts : Options :=
  { newton_iterations := 2
  , correction_tolerance_threshold := -1
  , residual_tolerance_threshold := 1/2 }

/-- An environment whose linear solver always reports failure. -/
def failEnv : Env :=
  { R0 := F.val 3
  , solveOk := fun _ => false
  , updatedR := fun _ => F.val 1
  , dx2 := fun _ => F.val 1
  , du2 := fun _ => F.val 1
  , itTime := fun _ => 5 }

/-- An environment whose linear solver always succeeds, with squared initial
residual 2. -/
def okEnv : Env :=
  { R0 := F.val 2
  , solveOk := fun _ => true
  , updatedR := fun _ => F.val 1
  , dx2 := fun _ => F.val 1
  , du2 := fun _ => F.val 1
  , itTime := fun _ => 7 }

/-- An environment for the residual-criterion counterexample: the initial
residual is 100 and every re-assembled residual is 1. -/
def c2Env : Env :=
  { R0 := F.val 100
  , solveOk := fun _ => true
  , updatedR := fun _ => F.val 1
  , dx2 := fun _ => F.val 1
  , du2 := fun _ => F.val 1
  , itTime := fun _ => 0 }

/-- An environment whose running-total squared norm is 0, below the numerical
floor, triggering the divergence check. -/
def divEnv : Env :=
  { R0 := F.val 5
  , solveOk := fun _ => true
  , updatedR := fun _ => F.val 4
  , dx2 := fun _ => F.val 1
  , du2 := fun _ => F.val 0
  , itTime := fun _ => 1 }

/-- An environment in which the correction criterion fires on the first
iteration: the increment squared norm 1 is below tol_c^2 times the
running-total squared norm 100 for tol_c = 1. -/
def corrEnv : Env :=
  { R0 := F.val 50
  , solveOk := fun _ => true
  , updatedR := fun _ => F.val 25
  , dx2 := fun _ => F.val 1
  , du2 := fun _ => F.val 100
  , itTime := fun _ => 2 }

/-- A configuration with two Newton iterations and both tolerances at 1. -/
def bothTolOpts : Options :=
  { newton_iterations := 2
  , correction_tolerance_threshold := 1
  , residual_tolerance_threshold := 1 }

/-- A component state with the rate-limiting flag clear and nonempty telemetry. -/
def freshState : ComponentState :=
  { error_message_already_printed := false
  , d_converged := true
  , p_squared_residuals := [F.val 9]
  , p_times := [3]
  , p_squared_initial_residual := F.val 9
  , mechanicalState := 42 }

/-- A 3-component vector of exact rationals (`Eigen::Matrix<FLOATING_POINT_TYPE, 3, 1>`). -/
structure Vec3 where
  x : ℚ
  y : ℚ
  z : ℚ
deriving DecidableEq

/-- A 3x3 matrix of exact rationals (`Mat33`), stored by rows. -/
structure Mat3 where
  r0 : Vec3
  r1 : Vec3
  r2 : Vec3
deriving DecidableEq

/-- Matrix-vector product. -/
def Mat3.mulVec (m : Mat3) (v : Vec3) : Vec3 :=
  { x := m.r0.x * v.x + m.r0.y * v.y + m.r0.z * v.z
  , y := m.r1.x * v.x + m.r1.y * v.y + m.r1.z * v.z
  , z := m.r2.x * v.x + m.r2.y * v.y + m.r2.z * v.z }

/-- Matrix transpose. -/
def Mat3.transpose (m : Mat3) : Mat3 :=
  { r0 := { x := m.r0.x, y := m.r1.x, z := m.r2.x }
  , r1 := { x := m.r0.y, y := m.r1.y, z := m.r2.y }
  , r2 := { x := m.r0.z, y := m.r1.z, z := m.r2.z } }

/-- Matrix product. -/
def Mat3.mul (a b : Mat3) : Mat3 :=
  { r0 := { x := a.r0.x * b.r0.x + a.r0.y * b.r1.x + a.r0.z * b.r2.x
          , y := a.r0.x * b.r0.y + a.r0.y * b.r1.y + a.r0.z * b.r2.y
          , z := a.r0.x * b.r0.z + a.r0.y * b.r1.z + a.r0.z * b.r2.z }
  , r1 := { x := a.r1.x * b.r0.x + a.r1.y * b.r1.x + a.r1.z * b.r2.x
          , y := a.r1.x * b.r0.y + a.r1.y * b.r1.y + a.r1.z * b.r2.y
          , z := a.r1.x * b.r0.z + a.r1.y * b.r1.z + a.r1.z * b.r2.z }
  , r2 := { x := a.r2.x * b.r0.x + a.r2.y * b.r1.x + a.r2.z * b.r2.x
          , y := a.r2.x * b.r0.y + a.r2.y * b.r1.y + a.r2.z * b.r2.y
          , z := a.r2.x * b.r0.z + a.r2.y * b.r1.z + a.r2.z * b.r2.z } }

/-- The identity matrix (`Mat33::Identity()`). -/
def Mat3.identity : Mat3 :=
  { r0 := { x := 1, y := 0, z := 0 }
  , r1 := { x := 0, y := 1, z := 0 }
  , r2 := { x := 0, y := 0, z := 1 } }

/-- `caribou::geometry::RectangularHexahedron`: a center position `p_center`,
edge dimensions `p_H = {hx, hy, hz}` and a rotation matrix `p_R`. -/
structure RectangularHexahedron where
  p_center : Vec3
  p_H : Vec3
  p_R : Mat3

/-- `RectangularHexahedron::T`: transformation of a local position to its world
position, `p_center + ((p_R * coordinates).array() * (p_H / 2.).array())`. -/
def RectangularHexahedron.T (h : RectangularHexahedron) (coordinates : Vec3) : Vec3 :=
  { x := h.p_center.x + (h.p_R.mulVec coordinates).x * (h.p_H.x / 2)
  , y := h.p_center.y + (h.p_R.mulVec coordinates).y * (h.p_H.y / 2)
  , z := h.p_center.z + (h.p_R.mulVec coordinates).z * (h.p_H.z / 2) }

/-- `RectangularHexahedron::Tinv`: inverse transformation of a world position
to its local position,
`p_R.transpose() * ((coordinates - p_center).array() / (p_H / 2.).array())`. -/
def RectangularHexahedron.Tinv (h : RectangularHexahedron) (coordinates : Vec3) : Vec3 :=
  h.p_R.transpose.mulVec
    { x := (coordinates.x - h.p_center.x) / (h.p_H.x / 2)
    , y := (coordinates.y - h.p_center.y) / (h.p_H.y / 2)
    , z := (coordinates.z - h.p_center.z) / (h.p_H.z / 2) }

/-- `caribou::topology::engine::Grid`: the cell storage `m_cells` and the
(virtual, externally implemented) `cell_index` mapping from grid coordinates
`(i, j, k)` to a flat index. -/
structure Grid (Cell : Type) where
  m_cells : List Cell
  cell_index : ℕ × ℕ × ℕ → ℕ

/-- The non-const overload of `Grid::get`:
`return m_cells[cell_index(grid_coordinates)];`. -/
def Grid.get {Cell : Type} (g : Grid Cell) (grid_coordinates : ℕ × ℕ × ℕ) : Option Cell :=
  g.m_cells.get? (g.cell_index grid_coordinates)

/-- The const overload of `Grid::get`. Its body is
`return get(grid_coordinates);` inside a const member function, where overload
resolution selects the const overload itself, so the call recurses into itself
unconditionally. The recursion is modelled with explicit fuel: `none` stands
for a call still running (or the eventual stack overflow). -/
def Grid.constGet {Cell : Type} (g : Grid Cell) (grid_coordinates : ℕ × ℕ × ℕ) :
    ℕ → Option Cell
  | 0 => none
  | fuel + 1 => g.constGet grid_coordinates fuel

/-- A concrete rectangular hexahedron: center (1, 2, 3), dimensions (2, 4, 6)
and the identity rotation. -/
def exHexa : RectangularHexahedron :=
  { p_center := { x := 1, y := 2, z := 3 }
  , p_H := { x := 2, y := 4, z := 6 }
  , p_R := Mat3.identity }

/-- A concrete local coordinate vector. -/
def exVec : Vec3 := { x := 1/2, y := -7, z := 1/3 }

/-! ## Helper lemmas -/

/-- A loop state whose converged flag is set exits the Newton loop untouched. -/
theorem newtonLoop_of_converged (opts : Options) (env : Env) (fuel : ℕ)
    (s : LoopState) (h : s.converged = true) : newtonLoop opts env fuel s = s := by
  cases fuel <;> simp [newtonLoop, h]

/-- A loop state whose diverged flag is set exits the Newton loop untouched. -/
theorem newtonLoop_of_diverged (opts : Options) (env : Env) (fuel : ℕ)
    (s : LoopState) (h : s.diverged = true) : newtonLoop opts env fuel s = s := by
  cases fuel <;> simp [newtonLoop, h]

/-- Each Newton step either sets the diverged flag or completes its iteration,
incrementing the completed-iteration counter by one. -/
theorem newtonStep_cases (opts : Options) (env : Env) (s : LoopState) :
    (newtonStep opts env s).diverged = true ∨
    (newtonStep opts env s).n_it = s.n_it + 1 := by
  simp only [newtonStep]
  split_ifs <;> simp

/-- One Newton step preserves the loop invariant. -/
theorem newtonStep_inv (opts : Options) (env : Env) (s : LoopState)
    (hc : s.converged = false) (hd : s.diverged = false)
    (hk : s.n_it < opts.newton_iterations)
    (h : LoopInv opts s) : LoopInv opts (newtonStep opts env s) := by
  obtain ⟨h1, h2, h3, h4⟩ := h
  simp only [newtonStep, LoopInv]
  split_ifs <;> refine ⟨?_, ?_, ?_, ?_⟩ <;> simp_all <;> omega

/-- The Newton loop preserves the loop invariant. -/
theorem newtonLoop_inv (opts : Options) (env : Env) :
    ∀ (fuel : ℕ) (s : LoopState), LoopInv opts s →
      LoopInv opts (newtonLoop opts env fuel s) := by
  intro fuel
  induction fuel with
  | zero => intro s h; simpa [newtonLoop] using h
  | succ n ih =>
    intro s h
    simp only [newtonLoop]
    split_ifs with hg
    · exact h
    · simp only [Bool.or_eq_true, decide_eq_true_eq, not_or, Bool.not_eq_true, not_le] at hg
      obtain ⟨⟨hc, hd⟩, hk⟩ := hg
      exact ih _ (newtonStep_inv opts env s hc hd hk h)

/-- With enough fuel, the Newton loop terminates through its guard: at exit
either a flag is set or the completed-iteration count reached the maximum. -/
theorem newtonLoop_exit (opts : Options) (env : Env) :
    ∀ (fuel : ℕ) (s : LoopState), LoopInv opts s →
      opts.newton_iterations < s.n_it + fuel →
      (newtonLoop opts env fuel s).converged = true ∨
      (newtonLoop opts env fuel s).diverged = true ∨
      (newtonLoop opts env fuel s).n_it = opts.newton_iterations := by
  intro fuel
  induction fuel with
  | zero =>
    intro s h hf
    exact absurd h.2.2.1 (by omega)
  | succ n ih =>
    intro s h hf
    simp only [newtonLoop]
    split_ifs with hg
    · simp only [Bool.or_eq_true, decide_eq_true_eq] at hg
      rcases hg with (hg | hg) | hg
      · exact Or.inl hg
      · exact Or.inr (Or.inl hg)
      · exact Or.inr (Or.inr (le_antisymm h.2.2.1 hg))
    · simp only [Bool.or_eq_true, decide_eq_true_eq, not_or, Bool.not_eq_true, not_le] at hg
      obtain ⟨⟨hc, hd⟩, hk⟩ := hg
      rcases newtonStep_cases opts env s with hdd | hn
      · rw [newtonLoop_of_diverged opts env n _ hdd]
        exact Or.inr (Or.inl hdd)
      · exact ih _ (newtonStep_inv opts env s hc hd hk h) (by omega)

/-- The initial loop state satisfies the loop invariant. -/
theorem initialState_inv (opts : Options) (env : Env) :
    LoopInv opts (initialState opts env) := by
  simp [initialState, LoopInv]

/-! ## Claims -/

/-- C5: after every solve call with a valid linear solver attached, the
squared-residual history and the iteration-time history have equal length,
that length equals the number of completed Newton iterations, and the number
of completed iterations never exceeds the configured `newton_iterations`. -/
theorem newton_telemetry_lengths (opts : Options) (env : Env) :
    (runSolve opts env).p_squared_residuals.length = (runSolve opts env).n_it ∧
    (runSolve opts env).p_times.length = (runSolve opts env).n_it ∧
    (runSolve opts env).n_it ≤ opts.newton_iterations := by
  have h := newtonLoop_inv opts env (opts.newton_iterations + 1)
    (initialState opts env) (initialState_inv opts env)
  exact ⟨h.1, h.2.1, h.2.2.1⟩

/-- C6: at exit of every solve call with a valid linear solver attached,
exactly one of the following holds: the converged flag is set, the diverged
flag is set, or the completed-iteration count reached the configured
`newton_iterations` with neither flag set. -/
theorem newton_exit_trichotomy (opts : Options) (env : Env) :
    ((runSolve opts env).converged = true ∧ (runSolve opts env).diverged = false) ∨
    ((runSolve opts env).diverged = true ∧ (runSolve opts env).converged = false) ∨
    ((runSolve opts env).converged = false ∧ (runSolve opts env).diverged = false ∧
      (runSolve opts env).n_it = opts.newton_iterations) := by
  have hinv := newtonLoop_inv opts env (opts.newton_iterations + 1)
    (initialState opts env) (initialState_inv opts env)
  have hexit := newtonLoop_exit opts env (opts.newton_iterations + 1)
    (initialState opts env) (initialState_inv opts env)
    (by simp [initialState])
  have hcd : ((runSolve opts env).converged && (runSolve opts env).diverged) = false :=
    hinv.2.2.2
  have hex2 : (runSolve opts env).converged = true ∨ (runSolve opts env).diverged = true ∨
      (runSolve opts env).n_it = opts.newton_iterations := hexit
  cases hcv : (runSolve opts env).converged with
  | true =>
    left
    refine ⟨rfl, ?_⟩
    rw [hcv] at hcd
    simpa using hcd
  | false =>
    cases hdv : (runSolve opts env).diverged with
    | true => exact Or.inr (Or.inl ⟨rfl, rfl⟩)
    | false =>
      refine Or.inr (Or.inr ⟨rfl, rfl, ?_⟩)
      rcases hex2 with h | h | h
      · rw [hcv] at h; exact absurd h (by simp)
      · rw [hdv] at h; exact absurd h (by simp)
      · exact h

/-- C1 (counterexample): with residual tolerance 2 and squared initial
residual 3, the claim's premise holds (the tolerance is positive and the
squared initial residual 3 is below the squared tolerance 4), yet the solver
does not mark converged: the code compares the squared initial residual with
the unsquared tolerance (`R_squared_norm <= residual_tolerance_threshold`),
and 3 <= 2 fails. -/
theorem newton_short_circuit_counterexample :
    0 < cOpts1.residual_tolerance_threshold ∧
    F.lt failEnv.R0 (F.val (cOpts1.residual_tolerance_threshold *
      cOpts1.residual_tolerance_threshold)) = true ∧
    (runSolve cOpts1 failEnv).converged = false := by
  refine ⟨by norm_num [cOpts1], by norm_num [failEnv, cOpts1, F.lt], ?_⟩
  norm_num [runSolve, newtonLoop, newtonStep, initialState, F.lt, F.le, F.isNaN,
    F.scale, EPSILON, cOpts1, failEnv]

/-- C1 (amended): at solve entry (with a valid linear solver attached), if the
configured residual tolerance is positive and the squared initial residual is
at most the (unsquared) residual tolerance — the code compares
`R_squared_norm <= residual_tolerance_threshold` — the solver marks converged
and performs zero Newton iterations, leaving the residual and timing
histories empty. -/
theorem newton_initial_short_circuit (opts : Options) (env : Env)
    (htol : 0 < opts.residual_tolerance_threshold)
    (hle : env.R0.le (F.val opts.residual_tolerance_threshold) = true) :
    (runSolve opts env).converged = true ∧
    (runSolve opts env).n_it = 0 ∧
    (runSolve opts env).p_squared_residuals = [] ∧
    (runSolve opts env).p_times = [] ∧
    (runSolve opts env).reason = some Reason.initialEquilibrium := by
  have hconv : (initialState opts env).converged = true := by
    simp [initialState, htol, hle]
  have hrun : newtonLoop opts env (opts.newton_iterations + 1) (initialState opts env) =
      initialState opts env :=
    newtonLoop_of_converged _ _ _ _ hconv
  simp only [runSolve]
  rw [hrun]
  simp [initialState, htol, hle]

/-- C1 (witness): residual tolerance 2 and squared initial residual 2 trigger
the short-circuit. -/
theorem newton_initial_short_circuit_witness :
    (0 < cOpts1.residual_tolerance_threshold ∧
      okEnv.R0.le (F.val cOpts1.residual_tolerance_threshold) = true) ∧
    ((runSolve cOpts1 okEnv).converged = true ∧
      (runSolve cOpts1 okEnv).n_it = 0 ∧
      (runSolve cOpts1 okEnv).p_squared_residuals = [] ∧
      (runSolve cOpts1 okEnv).p_times = [] ∧
      (runSolve cOpts1 okEnv).reason = some Reason.initialEquilibrium) :=
  ⟨⟨by norm_num [cOpts1], by decide⟩,
    newton_initial_short_circuit cOpts1 okEnv (by norm_num [cOpts1]) (by decide)⟩

/-- C3: in every Newton iteration (one that passed the linear solve), if the
residual squared norm is NaN, or the increment squared norm is NaN, or the
squared norm of the running total displacement is below the numerical floor
EPSILON, the solver marks diverged, does not mark converged, surfaces no
convergence reason (neither convergence criterion is evaluated), and the
iteration loop stops immediately. -/
theorem newton_divergence_before_convergence (opts : Options) (env : Env) (s : LoopState)
    (hconv : s.converged = false) (hreason : s.reason = none)
    (hsolve : env.solveOk s.n_it = true)
    (hdiv : ((if 1 < opts.newton_iterations then env.updatedR s.n_it
        else s.R_squared_norm).isNaN ||
      (env.dx2 s.n_it).isNaN ||
      (env.du2 s.n_it).lt (F.val EPSILON)) = true) :
    (newtonStep opts env s).diverged = true ∧
    (newtonStep opts env s).converged = false ∧
    (newtonStep opts env s).reason = none ∧
    ∀ fuel : ℕ, newtonLoop opts env fuel (newtonStep opts env s) =
      newtonStep opts env s := by
  simp only [Bool.or_eq_true] at hdiv
  have hd : (newtonStep opts env s).diverged = true := by
    simp only [newtonStep, hsolve]
    simp [hdiv]
  refine ⟨hd, ?_, ?_, fun fuel => newtonLoop_of_diverged _ _ _ _ hd⟩
  · simp only [newtonStep, hsolve]
    simp [hdiv, hconv]
  · simp only [newtonStep, hsolve]
    simp [hdiv, hreason]

/-- C3 (witness): with a single configured iteration, both tolerances
disabled, a succeeding linear solver and a zero running-total squared norm,
the first iteration diverges on the numerical floor. -/
theorem newton_divergence_before_convergence_witness :
    (newtonStep noTolOpts divEnv (initialState noTolOpts divEnv)).diverged = true ∧
    (newtonStep noTolOpts divEnv (initialState noTolOpts divEnv)).converged = false ∧
    (newtonStep noTolOpts divEnv (initialState noTolOpts divEnv)).reason = none := by
  have h := newton_divergence_before_convergence noTolOpts divEnv
    (initialState noTolOpts divEnv)
    (by norm_num [initialState, noTolOpts])
    (by norm_num [initialState, noTolOpts])
    (by norm_num [initialState, divEnv])
    (by norm_num [initialState, noTolOpts, divEnv, F.isNaN, F.lt, EPSILON])
  exact ⟨h.1, h.2.1, h.2.2.1⟩

/-- C4: an iteration in which the attached linear solver's solve returns false
marks diverged and mutates nothing beyond the tangent-matrix assembly (no
propagation, no accumulation, no history entry, no iteration count); hence a
linear solver that always fails yields diverged on the very first iteration
with empty histories, zero completed iterations and exactly one tangent
assembly. -/
theorem newton_linear_failure_stops (opts : Options) (env : Env)
    (hfail : ∀ k, env.solveOk k = false)
    (hss : (decide (0 < opts.residual_tolerance_threshold) &&
      env.R0.le (F.val opts.residual_tolerance_threshold)) = false)
    (hone : 1 ≤ opts.newton_iterations) :
    (∀ s : LoopState, newtonStep opts env s =
      { s with diverged := true, nMatrixAssemblies := s.nMatrixAssemblies + 1 }) ∧
    (runSolve opts env).diverged = true ∧
    (runSolve opts env).converged = false ∧
    (runSolve opts env).n_it = 0 ∧
    (runSolve opts env).p_squared_residuals = [] ∧
    (runSolve opts env).p_times = [] ∧
    (runSolve opts env).nMatrixAssemblies = 1 ∧
    (runSolve opts env).nPropagations = 0 ∧
    (runSolve opts env).nAccumulations = 0 := by
  have hstep : ∀ s : LoopState, newtonStep opts env s =
      { s with diverged := true, nMatrixAssemblies := s.nMatrixAssemblies + 1 } := by
    intro s
    simp [newtonStep, hfail s.n_it]
  have hinitc : (initialState opts env).converged = false := by
    simp only [initialState]
    simp [hss]
  obtain ⟨n, hn⟩ : ∃ n, opts.newton_iterations = n + 1 :=
    ⟨opts.newton_iterations - 1, by omega⟩
  have hsd : (newtonStep opts env (initialState opts env)).diverged = true := by
    rw [hstep]
  have hloop : newtonLoop opts env (opts.newton_iterations + 1) (initialState opts env) =
      newtonStep opts env (initialState opts env) := by
    rw [hn]
    simp only [newtonLoop]
    rw [if_neg (by simp [initialState, hss]; omega), if_pos (by simp [hsd])]
  simp only [runSolve]
  rw [hloop, hstep (initialState opts env)]
  refine ⟨hstep, ?_⟩
  simp [initialState, hss]

/-- C4 (witness): the always-failing linear solver with residual tolerance 2
and squared initial residual 3 diverges immediately with pristine state. -/
theorem newton_linear_failure_stops_witness :
    (runSolve cOpts1 failEnv).diverged = true ∧
    (runSolve cOpts1 failEnv).converged = false ∧
    (runSolve cOpts1 failEnv).n_it = 0 ∧
    (runSolve cOpts1 failEnv).p_squared_residuals = [] ∧
    (runSolve cOpts1 failEnv).p_times = [] ∧
    (runSolve cOpts1 failEnv).nMatrixAssemblies = 1 ∧
    (runSolve cOpts1 failEnv).nPropagations = 0 ∧
    (runSolve cOpts1 failEnv).nAccumulations = 0 := by
  have h := newton_linear_failure_stops cOpts1 failEnv (fun k => rfl)
    (by norm_num [cOpts1, failEnv, F.le])
    (by norm_num [cOpts1])
  exact h.2

/-- C7 (counterexample): with `newton_iterations = 1`, the short-circuit not
firing, and a linear solver that fails, zero iterations are performed and
recorded, not exactly one: the claim needs the first linear solve to
succeed. -/
theorem newton_single_iteration_counterexample :
    noTolOpts.newton_iterations = 1 ∧
    (decide (0 < noTolOpts.residual_tolerance_threshold) &&
      failEnv.R0.le (F.val noTolOpts.residual_tolerance_threshold)) = false ∧
    (runSolve noTolOpts failEnv).n_it = 0 ∧
    (runSolve noTolOpts failEnv).p_squared_residuals = [] ∧
    (runSolve noTolOpts failEnv).p_times = [] := by
  refine ⟨rfl, by norm_num [noTolOpts, failEnv], ?_⟩
  norm_num [runSolve, newtonLoop, newtonStep, initialState, F.lt, F.le, F.isNaN,
    F.scale, EPSILON, noTolOpts, failEnv]

/-- C7 (amended): when `newton_iterations = 1` and the initial-residual
short-circuit does not fire, at most one Newton iteration is performed (the
loop never repeats); and provided the first linear solve succeeds, exactly one
iteration is performed and recorded, and the recorded squared residual equals
the squared initial residual computed before the loop (the residual is not
re-assembled after the state update). -/
theorem newton_single_iteration (opts : Options) (env : Env)
    (hone : opts.newton_iterations = 1)
    (hss : (decide (0 < opts.residual_tolerance_threshold) &&
      env.R0.le (F.val opts.residual_tolerance_threshold)) = false) :
    (runSolve opts env).n_it ≤ 1 ∧
    (env.solveOk 0 = true →
      (runSolve opts env).n_it = 1 ∧
      (runSolve opts env).p_squared_residuals = [env.R0] ∧
      (runSolve opts env).p_times = [env.itTime 0]) := by
  have hbound := (newtonLoop_inv opts env (opts.newton_iterations + 1)
    (initialState opts env) (initialState_inv opts env)).2.2.1
  refine ⟨by simp only [runSolve]; omega, ?_⟩
  intro hsolve
  have hinitc : (initialState opts env).converged = false := by
    simp only [initialState]
    simp [hss]
  have hstepf : (newtonStep opts env (initialState opts env)).n_it = 1 ∧
      (newtonStep opts env (initialState opts env)).p_squared_residuals = [env.R0] ∧
      (newtonStep opts env (initialState opts env)).p_times = [env.itTime 0] := by
    simp only [newtonStep, initialState, hone]
    simp [hsolve]
    split_ifs <;> simp
  have hloop : newtonLoop opts env (opts.newton_iterations + 1) (initialState opts env) =
      newtonStep opts env (initialState opts env) := by
    rw [hone]
    simp only [newtonLoop]
    rw [if_neg (by simp [initialState, hss]; omega), if_pos (by simp [hstepf.1, hone])]
  simp only [runSolve]
  rw [hloop]
  exact hstepf

/-- C7 (witness): single configured iteration, disabled tolerances, a
succeeding linear solver: exactly one iteration is recorded, with the initial
residual reused. -/
theorem newton_single_iteration_witness :
    (runSolve noTolOpts okEnv).n_it ≤ 1 ∧
    ((runSolve noTolOpts okEnv).n_it = 1 ∧
      (runSolve noTolOpts okEnv).p_squared_residuals = [okEnv.R0] ∧
      (runSolve noTolOpts okEnv).p_times = [okEnv.itTime 0]) := by
  have h := newton_single_iteration noTolOpts okEnv rfl
    (by norm_num [noTolOpts, okEnv])
  exact ⟨h.1, h.2 rfl⟩

/-- C2 (counterexample): with two configured iterations, correction criterion
disabled, residual tolerance 1/2, squared initial residual 100 and every
re-assembled residual 1, the claim's residual criterion (normalized by the
squared initial residual assembled before the loop) holds at the first
iteration — 1 < (1/2)^2 * 100 — and the correction criterion does not fire,
yet the solver does not stop there: it runs a second iteration and exits
non-converged, because the code normalizes by `p_squared_residuals[0]` (the
residual recorded at the end of the first iteration, re-assembled after the
state update), not by the pre-loop initial residual. -/
theorem newton_residual_reference_counterexample :
    0 < c2Opts.residual_tolerance_threshold ∧
    (c2Env.updatedR 0).lt (F.scale (c2Opts.residual_tolerance_threshold *
      c2Opts.residual_tolerance_threshold) c2Env.R0) = true ∧
    (decide (0 < c2Opts.correction_tolerance_threshold) &&
      (c2Env.dx2 0).lt (F.scale (c2Opts.correction_tolerance_threshold *
        c2Opts.correction_tolerance_threshold) (c2Env.du2 0))) = false ∧
    (runSolve c2Opts c2Env).converged = false ∧
    (runSolve c2Opts c2Env).n_it = 2 := by
  refine ⟨by norm_num [c2Opts], by norm_num [c2Opts, c2Env, F.lt, F.scale],
    by norm_num [c2Opts, c2Env], ?_⟩
  norm_num [runSolve, newtonLoop, newtonStep, initialState, F.lt, F.le, F.isNaN,
    F.scale, EPSILON, c2Opts, c2Env]

/-- C2 (amended): in every Newton iteration that passes the linear solve and
the divergence check, the correction criterion is evaluated strictly before
the residual criterion: if the correction tolerance is positive and the
correction criterion holds, the solver marks converged with the
correction-based reason (the tie-break when both criteria would pass);
otherwise, if the residual tolerance is positive and the residual criterion
holds — normalized by `p_squared_residuals[0]`, the first recorded squared
residual, not the squared initial residual assembled before the loop — the
solver marks converged with the residual-based reason. -/
theorem newton_convergence_check_order (opts : Options) (env : Env) (s : LoopState)
    (hsolve : env.solveOk s.n_it = true)
    (hnodiv : ((if 1 < opts.newton_iterations then env.updatedR s.n_it
        else s.R_squared_norm).isNaN ||
      (env.dx2 s.n_it).isNaN ||
      (env.du2 s.n_it).lt (F.val EPSILON)) = false) :
    ((decide (0 < opts.correction_tolerance_threshold) &&
        (env.dx2 s.n_it).lt (F.scale (opts.correction_tolerance_threshold *
          opts.correction_tolerance_threshold) (env.du2 s.n_it))) = true →
      (newtonStep opts env s).converged = true ∧
      (newtonStep opts env s).reason = some Reason.correction) ∧
    ((decide (0 < opts.correction_tolerance_threshold) &&
        (env.dx2 s.n_it).lt (F.scale (opts.correction_tolerance_threshold *
          opts.correction_tolerance_threshold) (env.du2 s.n_it))) = false →
      (decide (0 < opts.residual_tolerance_threshold) &&
        (if 1 < opts.newton_iterations then env.updatedR s.n_it
          else s.R_squared_norm).lt
          (F.scale (opts.residual_tolerance_threshold * opts.residual_tolerance_threshold)
            ((s.p_squared_residuals ++ [if 1 < opts.newton_iterations
              then env.updatedR s.n_it else s.R_squared_norm]).headD (F.val 0)))) = true →
      (newtonStep opts env s).converged = true ∧
      (newtonStep opts env s).reason = some Reason.residual) := by
  have h0 : ¬(env.solveOk s.n_it = false) := by simp [hsolve]
  simp only [newtonStep]
  rw [if_neg h0, if_neg (by rw [hnodiv]; simp)]
  constructor
  · intro hc
    rw [if_pos hc]
    exact ⟨rfl, rfl⟩
  · intro hnc hr
    rw [if_neg (by rw [hnc]; simp), if_pos hr]
    exact ⟨rfl, rfl⟩

/-- C2 (witness): both tolerances 1, two configured iterations, increment
squared norm 1, running-total squared norm 100: the correction criterion fires
on the first iteration and the correction-based reason is surfaced. -/
theorem newton_convergence_check_order_witness :
    (newtonStep bothTolOpts corrEnv (initialState bothTolOpts corrEnv)).converged = true ∧
    (newtonStep bothTolOpts corrEnv (initialState bothTolOpts corrEnv)).reason =
      some Reason.correction := by
  have h := newton_convergence_check_order bothTolOpts corrEnv
    (initialState bothTolOpts corrEnv)
    (by norm_num [initialState, bothTolOpts, corrEnv])
    (by norm_num [initialState, bothTolOpts, corrEnv, F.isNaN, F.lt, EPSILON])
  exact h.1 (by norm_num [initialState, bothTolOpts, corrEnv, F.lt, F.scale])

/-- C8: a solve call without a valid linear solver is a no-op — it leaves the
converged flag, both telemetry histories, the squared initial residual and the
mechanical state untouched, only setting the rate-limiting flag — and it emits
the error messages only on the first of consecutive misconfigured calls: the
immediately repeated call emits nothing and changes nothing. -/
theorem solve_no_linear_solver_noop (opts : Options) (env : Env) (st : ComponentState)
    (hfresh : st.error_message_already_printed = false) :
    solveCall false opts env st =
      ({ st with error_message_already_printed := true }, 2) ∧
    solveCall false opts env { st with error_message_already_printed := true } =
      ({ st with error_message_already_printed := true }, 0) := by
  constructor <;> simp [solveCall, hfresh]

/-- C8 (witness): two consecutive misconfigured calls on a fresh component
state: the first emits the two error messages and only flips the flag, the
second emits nothing and changes nothing. -/
theorem solve_no_linear_solver_noop_witness :
    solveCall false noTolOpts okEnv freshState =
      ({ freshState with error_message_already_printed := true }, 2) ∧
    solveCall false noTolOpts okEnv
        { freshState with error_message_already_printed := true } =
      ({ freshState with error_message_already_printed := true }, 0) :=
  solve_no_linear_solver_noop noTolOpts okEnv freshState rfl

/-- Componentwise equality of 3-vectors. -/
theorem Vec3.ext3 (a b : Vec3) (hx : a.x = b.x) (hy : a.y = b.y)
    (hz : a.z = b.z) : a = b := by
  cases a
  cases b
  simp_all

/-- Matrix-vector product composes with matrix product. -/
theorem Mat3.mul_mulVec (a b : Mat3) (v : Vec3) :
    (a.mul b).mulVec v = a.mulVec (b.mulVec v) := by
  refine Vec3.ext3 _ _ ?_ ?_ ?_ <;> simp [Mat3.mul, Mat3.mulVec] <;> ring

/-- The identity matrix acts as the identity on vectors. -/
theorem Mat3.identity_mulVec (v : Vec3) : Mat3.identity.mulVec v = v := by
  refine Vec3.ext3 _ _ ?_ ?_ ?_ <;> simp [Mat3.identity, Mat3.mulVec]

/-- C9: for every RectangularHexahedron whose rotation matrix is orthogonal
(`R^T * R = I`) and whose dimensions hx, hy, hz are all nonzero, the
world-to-local transformation `Tinv` is a left inverse of the local-to-world
transformation `T`: `Tinv (T x) = x` for every local coordinate vector. -/
theorem hexahedron_Tinv_left_inverse (h : RectangularHexahedron) (v : Vec3)
    (horto : h.p_R.transpose.mul h.p_R = Mat3.identity)
    (hx : h.p_H.x ≠ 0) (hy : h.p_H.y ≠ 0) (hz : h.p_H.z ≠ 0) :
    h.Tinv (h.T v) = v := by
  have hinner :
      ({ x := ((h.T v).x - h.p_center.x) / (h.p_H.x / 2)
       , y := ((h.T v).y - h.p_center.y) / (h.p_H.y / 2)
       , z := ((h.T v).z - h.p_center.z) / (h.p_H.z / 2) } : Vec3) =
        h.p_R.mulVec v := by
    refine Vec3.ext3 _ _ ?_ ?_ ?_ <;>
      simp only [RectangularHexahedron.T] <;>
      field_simp <;>
      ring
  show h.p_R.transpose.mulVec _ = v
  rw [hinner, ← Mat3.mul_mulVec, horto, Mat3.identity_mulVec]

/-- C9 (witness): a concrete hexahedron with identity rotation and nonzero
dimensions, at a concrete local coordinate vector. -/
theorem hexahedron_Tinv_left_inverse_witness :
    exHexa.p_R.transpose.mul exHexa.p_R = Mat3.identity ∧
    exHexa.p_H.x ≠ 0 ∧ exHexa.p_H.y ≠ 0 ∧ exHexa.p_H.z ≠ 0 ∧
    exHexa.Tinv (exHexa.T exVec) = exVec := by
  have horto : exHexa.p_R.transpose.mul exHexa.p_R = Mat3.identity := by
    norm_num [exHexa, Mat3.identity, Mat3.transpose, Mat3.mul]
  exact ⟨horto, by norm_num [exHexa], by norm_num [exHexa], by norm_num [exHexa],
    hexahedron_Tinv_left_inverse exHexa exVec horto (by norm_num [exHexa])
      (by norm_num [exHexa]) (by norm_num [exHexa])⟩

/-- C10: the const overload of `Grid::get` never terminates with a cell — its
body `return get(grid_coordinates);` resolves to the const overload itself, so
the call recurses unconditionally: for every recursion depth, every grid and
every grid coordinate, no cell is produced, contradicting the documented
behaviour of returning `m_cells[cell_index(grid_coordinates)]` (which the
non-const overload `Grid.get` implements). -/
theorem grid_const_get_never_returns {Cell : Type} (g : Grid Cell)
    (gc : ℕ × ℕ × ℕ) : ∀ fuel : ℕ, g.constGet gc fuel = none ∧
      g.get gc = g.m_cells.get? (g.cell_index gc) := by
  intro fuel
  refine ⟨?_, rfl⟩
  induction fuel with
  | zero => rfl
  | succ n ih => simpa [Grid.constGet] using ih

end Caribou
